import Mathlib

/-!
Verification of the AMM stable-swap core of the cross-chain-bridge repository.
The repository ships only the program scaffold (module declarations and
instruction dispatch in src/solana-bridge/programs/amm); the arithmetic
substrate, the invariant engine, the state record and the two handlers are
declared there but their bodies are not under src/, so they are modelled
here from the specification and the claims are settled against that model.
-/

set_option maxRecDepth 100000

namespace Amm

/-- Modelled from the spec: src/solana-bridge/programs/amm/src/math/constants.rs
is declared in math/mod.rs but absent; the spec fixes a global fixed-point
scale, a maximum Newton-iteration count and a convergence tolerance. -/
def SCALE : Nat := 1000000

/-- Modelled from the spec: maximum Newton-iteration count (constants.rs absent). -/
def MAX_ITERATIONS : Nat := 255

/-- Modelled from the spec: smallest D-delta considered converged (constants.rs absent). -/
def CONVERGENCE_TOLERANCE : Nat := 1

/-- Modelled from the spec: the constant default fee rate, 0.003 at scale 10^6
(constants.rs absent). -/
def DEFAULT_FEE_RATE : Nat := 3000

/-- Modelled from the spec: lower bound of the valid amplification range
(constants.rs absent). -/
def MIN_AMPLIFICATION : Nat := 1

/-- Modelled from the spec: upper bound of the valid amplification range
(constants.rs absent). -/
def MAX_AMPLIFICATION : Nat := 10000

/-- Largest value representable in the u64 reserve fields. -/
def U64_MAX : Nat := 18446744073709551615

/-- Modelled from the spec: src/solana-bridge/programs/amm/src/errors.rs is
declared in lib.rs but absent; section 7 of the spec gives the taxonomy. -/
inductive AmmError where
  | invalidAmount
  | invalidAmplification
  | alreadyInitialized
  | overflow
  | underflow
  | convergenceFailure
  | degenerateSwap
  | slippageExceeded
  | insufficientLiquidity
deriving DecidableEq

/-- Modelled from the spec: math/fixed_point.rs is declared in math/mod.rs but
absent; a FixedPoint value is an integer scaled by the global SCALE factor. -/
structure FixedPoint where
  val : Nat
deriving DecidableEq

/-- Modelled from the spec: checked fixed-point addition (fixed_point.rs absent). -/
def FixedPoint.add (a b : FixedPoint) : Except AmmError FixedPoint :=
  if a.val + b.val ≤ U64_MAX then .ok ⟨a.val + b.val⟩ else .error .overflow

/-- Modelled from the spec: checked fixed-point subtraction; going below zero
fails with Underflow (fixed_point.rs absent). -/
def FixedPoint.sub (a b : FixedPoint) : Except AmmError FixedPoint :=
  if b.val ≤ a.val then .ok ⟨a.val - b.val⟩ else .error .underflow

/-- Modelled from the spec: checked fixed-point multiplication, promoted to a
wide intermediate and rescaled, rounding toward zero (fixed_point.rs absent). -/
def FixedPoint.mul (a b : FixedPoint) : Except AmmError FixedPoint :=
  if a.val * b.val / SCALE ≤ U64_MAX then .ok ⟨a.val * b.val / SCALE⟩ else .error .overflow

/-- Modelled from the spec: checked fixed-point division, promoted to a wide
intermediate, rounding toward zero (fixed_point.rs absent). -/
def FixedPoint.div (a b : FixedPoint) : Except AmmError FixedPoint :=
  if b.val = 0 then .error .overflow
  else if a.val * SCALE / b.val ≤ U64_MAX then .ok ⟨a.val * SCALE / b.val⟩
  else .error .overflow

/-- Modelled from the spec: exact fixed-point comparison (fixed_point.rs absent). -/
def FixedPoint.le (a b : FixedPoint) : Bool := a.val ≤ b.val

instance {ε α : Type} [DecidableEq ε] [DecidableEq α] : DecidableEq (Except ε α) := fun x y =>
  match x, y with
  | .ok a, .ok b =>
    if h : a = b then isTrue (by rw [h]) else isFalse (fun hc => h (Except.ok.inj hc))
  | .error e, .error f =>
    if h : e = f then isTrue (by rw [h]) else isFalse (fun hc => h (Except.error.inj hc))
  | .ok _, .error _ => isFalse (fun hc => Except.noConfusion hc)
  | .error _, .ok _ => isFalse (fun hc => Except.noConfusion hc)

/-- The quantity A times n to the n, for n = 2 assets. -/
def ann (amp : Nat) : Nat := 4 * amp

/-- Modelled from the spec: math/stable_swap.rs is declared in math/mod.rs but
absent; one closed-form Newton update for D derived from the stable-swap
derivative of the invariant. -/
def newtonStep (x y amp d : Nat) : Nat :=
  let dP := d * d / (x * 2) * d / (y * 2)
  (ann amp * (x + y) + 2 * dP) * d / ((ann amp - 1) * d + 3 * dP)

/-- Absolute difference on Nat. -/
def distNat (a b : Nat) : Nat := max a b - min a b

/-- Modelled from the spec: the bounded Newton loop for D with explicit
maximum-iteration guard and convergence predicate (stable_swap.rs absent). -/
def newtonIter (x y amp : Nat) : Nat → Nat → Except AmmError Nat
  | 0, _ => .error .convergenceFailure
  | fuel + 1, d =>
    if distNat (newtonStep x y amp d) d ≤ CONVERGENCE_TOLERANCE then .ok (newtonStep x y amp d)
    else newtonIter x y amp fuel (newtonStep x y amp d)

/-- Modelled from the spec: compute_invariant solves the stable-swap equation
for D by Newton iteration from the initial guess D0 = reserve_a + reserve_b
(stable_swap.rs absent). -/
def compute_invariant (x y amp : Nat) : Except AmmError Nat :=
  newtonIter x y amp MAX_ITERATIONS (x + y)

/-- Modelled from the spec: one Newton update for the unknown output reserve y
(stable_swap.rs absent). -/
def getYStep (b c d y : Nat) : Nat := (y * y + c) / (2 * y + b - d)

/-- Modelled from the spec: the bounded Newton loop for y with the same
convergence contract as the D loop (stable_swap.rs absent). -/
def getYIter (b c d : Nat) : Nat → Nat → Except AmmError Nat
  | 0, _ => .error .convergenceFailure
  | fuel + 1, y =>
    if distNat (getYStep b c d y) y ≤ CONVERGENCE_TOLERANCE then .ok (getYStep b c d y)
    else getYIter b c d fuel (getYStep b c d y)

/-- Modelled from the spec: solve for the new output reserve given the new
input reserve and a fixed invariant D (stable_swap.rs absent). -/
def getY (xNew d amp : Nat) : Except AmmError Nat :=
  getYIter (xNew + d / ann amp) (d * d / (xNew * 2) * d / (ann amp * 2)) d MAX_ITERATIONS d

/-- Modelled from the spec: the post-trade value of reserve_out, holding D
fixed while reserve_in increases by amount_in (stable_swap.rs absent). -/
def solveNewOut (reserve_in reserve_out amount_in amp : Nat) : Except AmmError Nat :=
  match compute_invariant reserve_in reserve_out amp with
  | .error e => .error e
  | .ok d => getY (reserve_in + amount_in) d amp

/-- Modelled from the spec: compute_swap_output returns
reserve_out_before - reserve_out_after, failing with DegenerateSwap when that
difference is not strictly positive (stable_swap.rs absent). -/
def compute_swap_output (reserve_in reserve_out amount_in amp : Nat) : Except AmmError Nat :=
  match solveNewOut reserve_in reserve_out amount_in amp with
  | .error e => .error e
  | .ok yNew =>
    if reserve_out - yNew = 0 then .error .degenerateSwap else .ok (reserve_out - yNew)

/-- Modelled from the spec: src/solana-bridge/programs/amm/src/state.rs is
declared in lib.rs but absent; the PoolState record of section 3 and 6. -/
structure PoolState where
  reserve_a : Nat
  reserve_b : Nat
  amplification : Nat
  lp_supply : Nat
  fee_rate : FixedPoint
  authority : Nat
deriving DecidableEq

/-- Swap direction: which reserve is in and which is out. -/
inductive Direction where
  | aToB
  | bToA
deriving DecidableEq

/-- Modelled from the spec: src/solana-bridge/programs/amm/src/instructions/initialize.rs
is dispatched from lib.rs but absent; validation order and effects from
section 4.4. -/
def initialize_pool (existing : Option PoolState)
    (authority amount_a amount_b amplification : Nat) : Except AmmError PoolState :=
  match existing with
  | some _ => .error .alreadyInitialized
  | none =>
    if amount_a = 0 ∨ amount_b = 0 then .error .invalidAmount
    else if amplification < MIN_AMPLIFICATION ∨ MAX_AMPLIFICATION < amplification then
      .error .invalidAmplification
    else
      match compute_invariant amount_a amount_b amplification with
      | .error e => .error e
      | .ok d =>
        if U64_MAX < d then .error .overflow
        else .ok { reserve_a := amount_a, reserve_b := amount_b,
                   amplification := amplification, lp_supply := d,
                   fee_rate := ⟨DEFAULT_FEE_RATE⟩, authority := authority }

/-- The (reserve_in, reserve_out) pair of a pool for a direction. -/
def reservesIn (p : PoolState) : Direction → Nat × Nat
  | .aToB => (p.reserve_a, p.reserve_b)
  | .bToA => (p.reserve_b, p.reserve_a)

/-- Modelled from the spec: fee charged on input, amount_in * fee_rate rounded
toward zero (swap.rs absent). -/
def feeAmount (p : PoolState) (amount_in : Nat) : Nat :=
  amount_in * p.fee_rate.val / SCALE

/-- Fee-adjusted input used for the invariant calculation. -/
def netInput (p : PoolState) (amount_in : Nat) : Nat :=
  amount_in - feeAmount p amount_in

/-- The output amount the swap handler computes for a request. -/
def amountOut (p : PoolState) (dir : Direction) (amount_in : Nat) : Except AmmError Nat :=
  compute_swap_output (reservesIn p dir).1 (reservesIn p dir).2
    (netInput p amount_in) p.amplification

/-- The post-trade pool: reserve_in grows by the full amount_in (the fee
portion stays in the pool), reserve_out shrinks by amount_out. -/
def applyTrade (p : PoolState) (dir : Direction) (amount_in out : Nat) : PoolState :=
  match dir with
  | .aToB => { p with reserve_a := p.reserve_a + amount_in, reserve_b := p.reserve_b - out }
  | .bToA => { p with reserve_b := p.reserve_b + amount_in, reserve_a := p.reserve_a - out }

/-- Modelled from the spec: src/solana-bridge/programs/amm/src/instructions/swap.rs
is dispatched from lib.rs but absent; steps 1-6 of section 4.5. -/
def swap (p : PoolState) (dir : Direction) (amount_in min_amount_out : Nat) :
    Except AmmError PoolState :=
  if amount_in = 0 then .error .invalidAmount
  else
    match amountOut p dir amount_in with
    | .error e => .error e
    | .ok out =>
      if out < min_amount_out then .error .slippageExceeded
      else if (reservesIn p dir).2 - out = 0 then .error .insufficientLiquidity
      else if U64_MAX < (reservesIn p dir).1 + amount_in then .error .overflow
      else .ok (applyTrade p dir amount_in out)

/-- The observable state transition of one swap instruction: on failure the
stored PoolState is the original one. -/
def swap_step (p : PoolState) (dir : Direction) (amount_in min_amount_out : Nat) :
    PoolState × Option AmmError :=
  match swap p dir amount_in min_amount_out with
  | .ok p2 => (p2, none)
  | .error e => (p, some e)

/-- The section-8 concrete scenario pool: reserves 1000000/1000000,
amplification 100, fee_rate 0.003. -/
def pool0 : PoolState :=
  { reserve_a := 1000000, reserve_b := 1000000, amplification := 100,
    lp_supply := 2000000, fee_rate := ⟨3000⟩, authority := 0 }

/-- The scenario pool after the amount_in = 1000 swap (amount_out = 997). -/
def pool1 : PoolState :=
  { reserve_a := 1001000, reserve_b := 999003, amplification := 100,
    lp_supply := 2000000, fee_rate := ⟨3000⟩, authority := 0 }

/-- The scenario pool after an amount_in = 1 swap (fee floors to zero). -/
def poolTiny : PoolState :=
  { reserve_a := 1000001, reserve_b := 999999, amplification := 100,
    lp_supply := 2000000, fee_rate := ⟨3000⟩, authority := 0 }

/-- An imbalanced but healthy pool (reserves 1134178/1375, amplification 2,
default fee rate) on which a successful swap makes the recomputed invariant
decrease. -/
def poolImb : PoolState :=
  { reserve_a := 1134178, reserve_b := 1375, amplification := 2,
    lp_supply := 346344, fee_rate := ⟨3000⟩, authority := 0 }

/-- The imbalanced pool after the amount_in = 6929 swap (amount_out = 20,
retained fee 20). -/
def poolImb2 : PoolState :=
  { reserve_a := 1141107, reserve_b := 1355, amplification := 2,
    lp_supply := 346344, fee_rate := ⟨3000⟩, authority := 0 }

/-- One unfolding of the bounded D-loop at exhausted fuel. -/
theorem newtonIter_zero (x y amp d : Nat) :
    newtonIter x y amp 0 d = .error .convergenceFailure := rfl

/-- One unfolding of the bounded D-loop at positive fuel: take a Newton step,
return it if within tolerance of the previous iterate, otherwise recurse. -/
theorem newtonIter_succ (x y amp d fuel : Nat) :
    newtonIter x y amp (fuel + 1) d =
      if distNat (newtonStep x y amp d) d ≤ CONVERGENCE_TOLERANCE
      then .ok (newtonStep x y amp d)
      else newtonIter x y amp fuel (newtonStep x y amp d) := rfl

/-- Claim C3: compute_invariant starts from the initial guess
D0 = reserve_a + reserve_b (the exact sum), applies the closed-form Newton
update iteratively, stops as soon as the delta between successive iterates is
at most CONVERGENCE_TOLERANCE or the fuel MAX_ITERATIONS is exhausted, and
returns ConvergenceFailure when the maximum is reached without convergence. -/
theorem claim_C3_invariant_loop_structure :
    (∀ x y amp, compute_invariant x y amp = newtonIter x y amp MAX_ITERATIONS (x + y))
    ∧ (∀ x y amp d, newtonIter x y amp 0 d = .error .convergenceFailure)
    ∧ (∀ x y amp d fuel, newtonIter x y amp (fuel + 1) d =
        if distNat (newtonStep x y amp d) d ≤ CONVERGENCE_TOLERANCE
        then .ok (newtonStep x y amp d)
        else newtonIter x y amp fuel (newtonStep x y amp d)) :=
  ⟨fun _ _ _ => rfl, fun x y amp d => newtonIter_zero x y amp d,
   fun x y amp d fuel => newtonIter_succ x y amp d fuel⟩

/-- Claim C2: every error returned by the swap handler leaves the stored
PoolState exactly as it was, and amount_in = 0 always fails with InvalidAmount
for every pool state. -/
theorem claim_C2_errors_leave_state_unmodified :
    (∀ p dir ain mout e, swap p dir ain mout = .error e →
       swap_step p dir ain mout = (p, some e))
    ∧ (∀ p dir mout, swap p dir 0 mout = .error .invalidAmount ∧
       swap_step p dir 0 mout = (p, some .invalidAmount)) := by
  constructor
  · intro p dir ain mout e h
    simp [swap_step, h]
  · intro p dir mout
    have h : swap p dir 0 mout = .error .invalidAmount := by simp [swap]
    exact ⟨h, by simp [swap_step, h]⟩

/-- Claim C2 witness: the zero-amount swap on the scenario pool fails with
InvalidAmount and the stored state is unchanged. -/
theorem claim_C2_witness :
    swap_step pool0 .aToB 0 5 = (pool0, some .invalidAmount) :=
  claim_C2_errors_leave_state_unmodified.1 pool0 .aToB 0 5 .invalidAmount (by decide)

/-- Claim C6: initialize_pool fails with InvalidAmount when either seed amount
is zero, with InvalidAmplification when the amplification is out of bounds,
and with AlreadyInitialized whenever the pool already holds state. -/
theorem claim_C6_initialize_validation :
    (∀ auth a b amp, (a = 0 ∨ b = 0) →
       initialize_pool none auth a b amp = .error .invalidAmount)
    ∧ (∀ auth a b amp, a ≠ 0 → b ≠ 0 →
       (amp < MIN_AMPLIFICATION ∨ MAX_AMPLIFICATION < amp) →
       initialize_pool none auth a b amp = .error .invalidAmplification)
    ∧ (∀ s auth a b amp,
       initialize_pool (some s) auth a b amp = .error .alreadyInitialized) := by
  refine ⟨?_, ?_, ?_⟩
  · intro auth a b amp h
    rcases h with h | h <;> simp [initialize_pool, h]
  · intro auth a b amp ha hb h
    rcases h with h | h <;> simp [initialize_pool, ha, hb, h, Nat.not_lt_of_lt h]
  · intro s auth a b amp
    rfl

/-- Claim C6 witness: the two boundary calls of the spec and a re-initialization
fail with the stated errors. -/
theorem claim_C6_witness :
    initialize_pool none 0 0 100 5 = .error .invalidAmount ∧
    initialize_pool none 0 100 100 0 = .error .invalidAmplification ∧
    initialize_pool (some pool0) 0 100 100 5 = .error .alreadyInitialized :=
  ⟨claim_C6_initialize_validation.1 0 0 100 5 (Or.inl rfl),
   claim_C6_initialize_validation.2.1 0 100 100 0 (by decide) (by decide) (Or.inl (by decide)),
   claim_C6_initialize_validation.2.2 pool0 0 100 100 5⟩

/-- Claim C5: a successful initialize_pool stores the seed amounts as the
reserves, the given amplification, the invariant D of the seed reserves as
lp_supply, and the constant default fee rate. -/
theorem claim_C5_initialize_effects :
    ∀ ex auth a b amp p, initialize_pool ex auth a b amp = .ok p →
      p.reserve_a = a ∧ p.reserve_b = b ∧ p.amplification = amp ∧
      compute_invariant a b amp = .ok p.lp_supply ∧
      p.fee_rate = ⟨DEFAULT_FEE_RATE⟩ ∧ p.authority = auth := by
  intro ex auth a b amp p h
  cases ex with
  | some s => exact absurd h (by simp [initialize_pool])
  | none =>
    by_cases ha : a = 0 ∨ b = 0
    · exact absurd h (by simp [initialize_pool, if_pos ha])
    by_cases hamp : amp < MIN_AMPLIFICATION ∨ MAX_AMPLIFICATION < amp
    · exact absurd h (by simp [initialize_pool, if_neg ha, if_pos hamp])
    cases hinv : compute_invariant a b amp with
    | error e =>
      exact absurd h (by simp [initialize_pool, if_neg ha, if_neg hamp, hinv])
    | ok d =>
      by_cases hd : U64_MAX < d
      · exact absurd h (by simp [initialize_pool, if_neg ha, if_neg hamp, hinv, if_pos hd])
      have h2 : Except.ok (α := PoolState) (ε := AmmError)
          { reserve_a := a, reserve_b := b, amplification := amp, lp_supply := d,
            fee_rate := ⟨DEFAULT_FEE_RATE⟩, authority := auth } = .ok p := by
        rw [← h]
        simp [initialize_pool, if_neg ha, if_neg hamp, hinv, if_neg hd]
      cases Except.ok.inj h2
      exact ⟨rfl, rfl, rfl, rfl, rfl, rfl⟩

/-- Claim C5 witness: initializing with the section-8 seed amounts produces
exactly the scenario pool, whose lp_supply is the seed invariant 2000000. -/
theorem claim_C5_witness :
    pool0.reserve_a = 1000000 ∧ pool0.reserve_b = 1000000 ∧
    pool0.amplification = 100 ∧
    compute_invariant 1000000 1000000 100 = .ok pool0.lp_supply ∧
    pool0.fee_rate = ⟨DEFAULT_FEE_RATE⟩ ∧ pool0.authority = 0 :=
  claim_C5_initialize_effects none 0 1000000 1000000 100 pool0 (by decide)

/-- Claim C4: for positive amount_in, a successful compute_swap_output returns
exactly reserve_out_before - reserve_out_after for the solved post-trade
output reserve, and that difference is strictly positive; when the difference
would be zero the computation fails with DegenerateSwap instead. -/
theorem claim_C4_output_positive_or_degenerate :
    ∀ rin rout ain amp, 0 < ain →
      (∀ out yNew, solveNewOut rin rout ain amp = .ok yNew →
         compute_swap_output rin rout ain amp = .ok out →
         out = rout - yNew ∧ 0 < out)
      ∧ (∀ yNew, solveNewOut rin rout ain amp = .ok yNew → rout - yNew = 0 →
         compute_swap_output rin rout ain amp = .error .degenerateSwap)
      ∧ (∀ e, solveNewOut rin rout ain amp = .error e →
         compute_swap_output rin rout ain amp = .error e) := by
  intro rin rout ain amp _
  refine ⟨?_, ?_, ?_⟩
  · intro out yNew hy hout
    unfold compute_swap_output at hout
    rw [hy] at hout
    by_cases hz : rout - yNew = 0
    · simp [hz] at hout
    · simp only [hz, if_false] at hout
      simp at hout
      omega
  · intro yNew hy hz
    unfold compute_swap_output
    rw [hy]
    simp [hz]
  · intro e he
    unfold compute_swap_output
    rw [he]

/-- Claim C4 witness: on the section-8 pool with net input 997 the solver
returns post-trade output reserve 999003 and output 997 = 1000000 - 999003. -/
theorem claim_C4_witness :
    997 = 1000000 - 999003 ∧ 0 < 997 :=
  (claim_C4_output_positive_or_degenerate 1000000 1000000 997 100 (by decide)).1 997 999003
    (by decide) (by decide)

/-- Claim C7: whenever the computed amount_out is below min_amount_out the
swap fails with SlippageExceeded and the stored state is unchanged; on the
section-8 scenario the 1000-for-990 swap succeeds with amount_out in
990..999, while the same swap with min_amount_out = 1000 fails with
SlippageExceeded and leaves the reserves at 1000000 / 1000000. -/
theorem claim_C7_slippage_guard :
    (∀ p dir ain mout out, ain ≠ 0 → amountOut p dir ain = .ok out → out < mout →
       swap p dir ain mout = .error .slippageExceeded ∧
       swap_step p dir ain mout = (p, some .slippageExceeded))
    ∧ swap pool0 .aToB 1000 990 = .ok pool1
    ∧ 990 ≤ 1000000 - pool1.reserve_b ∧ 1000000 - pool1.reserve_b < 1000
    ∧ swap pool0 .aToB 1000 1000 = .error .slippageExceeded
    ∧ swap_step pool0 .aToB 1000 1000 = (pool0, some .slippageExceeded) := by
  refine ⟨?_, by decide, by decide, by decide, by decide, by decide⟩
  intro p dir ain mout out hain hout hlt
  have h : swap p dir ain mout = .error .slippageExceeded := by
    unfold swap
    rw [if_neg hain, hout]
    simp [hlt]
  exact ⟨h, by simp [swap_step, h]⟩

/-- Claim C7 witness: the scenario swap with min_amount_out = 1000 computes
amount_out 997 < 1000 and is rejected with SlippageExceeded, state unchanged. -/
theorem claim_C7_witness :
    swap pool0 .aToB 1000 1000 = .error .slippageExceeded ∧
    swap_step pool0 .aToB 1000 1000 = (pool0, some .slippageExceeded) :=
  claim_C7_slippage_guard.1 pool0 .aToB 1000 1000 997 (by decide) (by decide) (by decide)

/-- Claim C8: each FixedPoint operation returns the exact (addition,
subtraction, comparison) or round-toward-zero (multiplication, division)
result bounded by the integer width, or fails with Overflow when the true
result is not representable; subtraction below zero fails with Underflow; no
operation returns a wrapped value. -/
theorem claim_C8_fixed_point_checked :
    ∀ a b : FixedPoint,
      (∀ c, FixedPoint.add a b = .ok c → c.val = a.val + b.val ∧ c.val ≤ U64_MAX)
      ∧ (U64_MAX < a.val + b.val → FixedPoint.add a b = .error .overflow)
      ∧ (∀ c, FixedPoint.sub a b = .ok c → c.val + b.val = a.val ∧ c.val ≤ a.val)
      ∧ (a.val < b.val → FixedPoint.sub a b = .error .underflow)
      ∧ (∀ c, FixedPoint.mul a b = .ok c → c.val = a.val * b.val / SCALE ∧ c.val ≤ U64_MAX)
      ∧ (U64_MAX < a.val * b.val / SCALE → FixedPoint.mul a b = .error .overflow)
      ∧ (b.val ≠ 0 → ∀ c, FixedPoint.div a b = .ok c →
           c.val = a.val * SCALE / b.val ∧ c.val ≤ U64_MAX)
      ∧ (b.val ≠ 0 → U64_MAX < a.val * SCALE / b.val → FixedPoint.div a b = .error .overflow)
      ∧ (FixedPoint.le a b = true ↔ a.val ≤ b.val) := by
  intro a b
  refine ⟨?_, ?_, ?_, ?_, ?_, ?_, ?_, ?_, ?_⟩
  · intro c hc
    unfold FixedPoint.add at hc
    split at hc
    · cases Except.ok.inj hc
      exact ⟨rfl, by assumption⟩
    · exact absurd hc (by simp)
  · intro h
    unfold FixedPoint.add
    rw [if_neg (Nat.not_le.mpr h)]
  · intro c hc
    unfold FixedPoint.sub at hc
    split at hc
    · cases Except.ok.inj hc
      refine ⟨Nat.sub_add_cancel (by assumption), ?_⟩
      exact Nat.sub_le a.val b.val
    · exact absurd hc (by simp)
  · intro h
    unfold FixedPoint.sub
    rw [if_neg (Nat.not_le.mpr h)]
  · intro c hc
    unfold FixedPoint.mul at hc
    split at hc
    · cases Except.ok.inj hc
      exact ⟨rfl, by assumption⟩
    · exact absurd hc (by simp)
  · intro h
    unfold FixedPoint.mul
    rw [if_neg (Nat.not_le.mpr h)]
  · intro hb c hc
    unfold FixedPoint.div at hc
    rw [if_neg hb] at hc
    split at hc
    · cases Except.ok.inj hc
      exact ⟨rfl, by assumption⟩
    · exact absurd hc (by simp)
  · intro hb h
    unfold FixedPoint.div
    rw [if_neg hb, if_neg (Nat.not_le.mpr h)]
  · simp [FixedPoint.le]

/-- Claim C8 witness: a checked addition returns the exact sum, a saturating
case overflows, and a subtraction below zero underflows, at concrete values. -/
theorem claim_C8_witness :
    ((⟨5000000⟩ : FixedPoint).val = (⟨2000000⟩ : FixedPoint).val + (⟨3000000⟩ : FixedPoint).val
      ∧ (⟨5000000⟩ : FixedPoint).val ≤ U64_MAX)
    ∧ FixedPoint.add ⟨18446744073709551615⟩ ⟨1⟩ = .error .overflow
    ∧ FixedPoint.sub ⟨1⟩ ⟨2⟩ = .error .underflow :=
  ⟨(claim_C8_fixed_point_checked ⟨2000000⟩ ⟨3000000⟩).1 ⟨5000000⟩ (by decide),
   (claim_C8_fixed_point_checked ⟨18446744073709551615⟩ ⟨1⟩).2.1 (by decide),
   (claim_C8_fixed_point_checked ⟨1⟩ ⟨2⟩).2.2.2.1 (by decide)⟩

/-- Claim C9: both reserves are strictly positive after any completed
operation: a successful initialize_pool stores the validated nonzero seed
amounts, a successful swap adds to one positive reserve and is guarded
against emptying the other, and a swap whose post-trade reserve_out would
reach zero is rejected with InsufficientLiquidity. -/
theorem claim_C9_reserves_stay_positive :
    (∀ ex auth a b amp p, initialize_pool ex auth a b amp = .ok p →
       0 < p.reserve_a ∧ 0 < p.reserve_b)
    ∧ (∀ p dir ain mout p2, 0 < p.reserve_a → 0 < p.reserve_b →
       swap p dir ain mout = .ok p2 → 0 < p2.reserve_a ∧ 0 < p2.reserve_b)
    ∧ (∀ p dir ain mout out, ain ≠ 0 → amountOut p dir ain = .ok out →
       ¬ out < mout → (reservesIn p dir).2 - out = 0 →
       swap p dir ain mout = .error .insufficientLiquidity) := by
  refine ⟨?_, ?_, ?_⟩
  · intro ex auth a b amp p h
    cases ex with
    | some s => exact absurd h (by simp [initialize_pool])
    | none =>
      by_cases ha : a = 0 ∨ b = 0
      · exact absurd h (by simp [initialize_pool, if_pos ha])
      by_cases hamp : amp < MIN_AMPLIFICATION ∨ MAX_AMPLIFICATION < amp
      · exact absurd h (by simp [initialize_pool, if_neg ha, if_pos hamp])
      cases hinv : compute_invariant a b amp with
      | error e =>
        exact absurd h (by simp [initialize_pool, if_neg ha, if_neg hamp, hinv])
      | ok d =>
        by_cases hd : U64_MAX < d
        · exact absurd h (by simp [initialize_pool, if_neg ha, if_neg hamp, hinv, if_pos hd])
        have h2 : Except.ok (α := PoolState) (ε := AmmError)
            { reserve_a := a, reserve_b := b, amplification := amp, lp_supply := d,
              fee_rate := ⟨DEFAULT_FEE_RATE⟩, authority := auth } = .ok p := by
          rw [← h]
          simp [initialize_pool, if_neg ha, if_neg hamp, hinv, if_neg hd]
        cases Except.ok.inj h2
        constructor
        · show 0 < a
          omega
        · show 0 < b
          omega
  · intro p dir ain mout p2 hra hrb h
    unfold swap at h
    split at h
    · exact absurd h (by simp)
    split at h
    · exact absurd h (by simp)
    split at h
    · exact absurd h (by simp)
    split at h
    · exact absurd h (by simp)
    split at h
    · exact absurd h (by simp)
    cases Except.ok.inj h
    cases dir <;> simp only [applyTrade, reservesIn] at * <;> exact ⟨by omega, by omega⟩
  · intro p dir ain mout out hain hout hge hz
    unfold swap
    rw [if_neg hain, hout]
    simp [hge, hz]

/-- Claim C9 witness: after the successful scenario swap both reserves of the
post-trade pool are strictly positive. -/
theorem claim_C9_witness :
    0 < pool1.reserve_a ∧ 0 < pool1.reserve_b :=
  claim_C9_reserves_stay_positive.2.1 pool0 .aToB 1000 990 pool1 (by decide) (by decide)
    (by decide)

/-- Claim C1 counterexample: on a valid pool (positive reserves, in-range
amplification, the default fee rate) a swap of amount_in = 6929 completes
successfully with fee_rate > 0, amount_in > 0 and even a positive retained
fee of 20, yet the invariant recomputed from the post-trade reserves is
346313, strictly below the pre-trade invariant 346344 — refuting the
universal clause D_after ≥ D_before, and with it the strict-growth clause,
at this explicit input. -/
theorem claim_C1_counterexample :
    0 < poolImb.fee_rate.val ∧ (0 : Nat) < 6929 ∧
    0 < feeAmount poolImb 6929 ∧
    0 < poolImb.reserve_a ∧ 0 < poolImb.reserve_b ∧
    MIN_AMPLIFICATION ≤ poolImb.amplification ∧
    poolImb.amplification ≤ MAX_AMPLIFICATION ∧
    swap poolImb .aToB 6929 0 = .ok poolImb2 ∧
    compute_invariant poolImb.reserve_a poolImb.reserve_b poolImb.amplification
      = .ok 346344 ∧
    compute_invariant poolImb2.reserve_a poolImb2.reserve_b poolImb2.amplification
      = .ok 346313 ∧
    ¬ (346344 : Nat) ≤ 346313 :=
  ⟨by decide, by decide, by decide, by decide, by decide, by decide, by decide, by decide,
   by decide, by decide, by decide⟩

/-- Claim C1 (amended): under the integer Newton solver the recomputed
invariant is not monotone across successful swaps — it can strictly decrease
(see the counterexample) — so neither the universal D_after ≥ D_before clause
nor the strict-growth clause survives; what holds is fee-driven growth on the
balanced section-8 scenario: the amount_in = 1000 swap retains fee 3 and
raises D from 2000000 to 2000002, while the amount_in = 1 swap retains fee 0
and leaves D at exactly 2000000. -/
theorem claim_C1_fee_growth_on_scenario :
    swap pool0 .aToB 1000 990 = .ok pool1 ∧
    feeAmount pool0 1000 = 3 ∧
    compute_invariant pool0.reserve_a pool0.reserve_b pool0.amplification = .ok 2000000 ∧
    compute_invariant pool1.reserve_a pool1.reserve_b pool1.amplification = .ok 2000002 ∧
    (2000000 : Nat) < 2000002 ∧
    feeAmount pool0 1 = 0 ∧
    swap pool0 .aToB 1 0 = .ok poolTiny ∧
    compute_invariant poolTiny.reserve_a poolTiny.reserve_b poolTiny.amplification
      = .ok 2000000 :=
  ⟨by decide, by decide, by decide, by decide, by decide, by decide, by decide, by decide⟩

/-- For a balanced pool the exact-sum initial guess is already a fixed point
of the Newton update. -/
theorem newtonStep_balanced (x amp : Nat) (hx : 1  ≤ x) (ha : 1 ≤ amp) :
    newtonStep x x amp (x + x) = x + x := by
  have h2 : 0 < x * 2 := by omega
  have e1 : (x + x) * (x + x) / (x * 2) = x + x := by
    have e : (x + x) * (x + x) = (x * 2) * (x + x) := by ring
    rw [e, Nat.mul_div_cancel_left _ h2]
  unfold newtonStep
  simp only [e1]
  have hden : (ann amp - 1) * (x + x) + 3 * (x + x) = (ann amp + 2) * (x + x) := by
    have h4 : 1 ≤ ann amp := by
      unfold ann
      omega
    rw [← Nat.add_mul]
    congr 1
    omega
  have hnum : (ann amp * (x + x) + 2 * (x + x)) * (x + x)
      = ((ann amp + 2) * (x + x)) * (x + x) := by ring
  rw [hden, hnum]
  have hpos : 0 < (ann amp + 2) * (x + x) := by
    apply Nat.mul_pos <;> omega
  rw [Nat.mul_div_cancel_left _ hpos]

/-- Claim C10 counterexample: the reserve pair (2^63 - 1, 1) lies in
[1, 2^63) and amplification 1 is within the configured valid range, yet the
Newton iteration for D cycles and compute_invariant exhausts MAX_ITERATIONS,
returning ConvergenceFailure. -/
theorem claim_C10_counterexample :
    1 ≤ (9223372036854775807 : Nat) ∧ (9223372036854775807 : Nat) < 2 ^ 63 ∧
    1 ≤ (1 : Nat) ∧ (1 : Nat) < 2 ^ 63 ∧
    MIN_AMPLIFICATION ≤ 1 ∧ 1 ≤ MAX_AMPLIFICATION ∧
    compute_invariant 9223372036854775807 1 1 = .error .convergenceFailure :=
  ⟨by decide, by decide, by decide, by decide, by decide, by decide, by decide⟩

/-- Claim C10 (amended): convergence within MAX_ITERATIONS does not hold over
all of [1, 2^63): at reserves (2^63 - 1, 1) with amplification 1 the D
iteration cycles and fails with ConvergenceFailure; for balanced reserve
pairs the iteration converges on the first step, compute_invariant x x amp
returning the exact invariant x + x for every x ≥ 1 and valid amplification. -/
theorem claim_C10_balanced_convergence (x amp : Nat) (hx : 1 ≤ x)
    (ha : MIN_AMPLIFICATION ≤ amp) :
    compute_invariant x x amp = .ok (x + x) := by
  have ha1 : 1 ≤ amp := ha
  have hstep := newtonStep_balanced x amp hx ha1
  unfold compute_invariant
  rw [show MAX_ITERATIONS = 254 + 1 from rfl, newtonIter_succ, hstep]
  simp [distNat, CONVERGENCE_TOLERANCE]

/-- Claim C10 witness: the balanced pool with reserves 7/7 and amplification
100 converges immediately to invariant 14. -/
theorem claim_C10_witness : compute_invariant 7 7 100 = .ok (7 + 7) :=
  claim_C10_balanced_convergence 7 100 (by decide) (by decide)


end Amm
